import Mathlib

/-!
Shallow embedding of the TallyBridge v1.3 core: CSV ingestion, mapping
validation, transaction building (App component, src/unnamed/part_000) and
the Tally XML voucher exporter (src/services/tallyXmlGenerator.ts).
Machine numbers are modelled as rationals; host string coercions
(parseFloat, trim, the template literals) are embedded explicitly.
-/

/-- The 12 canonical fields of ColumnMapping, in object-literal key order. -/
inductive CField where
  | date | invoiceNo | customerName | state
  | taxableValue | igst | cgst | sgst
  | totalAmount | gstRate | productName | quantity
deriving DecidableEq, Repr

/-- Iteration order of Object.keys over the mapping object literal. -/
def allFields : List CField :=
  [CField.date, CField.invoiceNo, CField.customerName, CField.state,
   CField.taxableValue, CField.igst, CField.cgst, CField.sgst,
   CField.totalAmount, CField.gstRate, CField.productName, CField.quantity]

/-- REQUIRED_FIELDS from the source (part_000 lines 48-57). -/
def REQUIRED_FIELDS : List CField :=
  [CField.date, CField.invoiceNo, CField.customerName, CField.taxableValue,
   CField.totalAmount, CField.gstRate, CField.productName, CField.quantity]

/-- The JavaScript key string of each canonical field. -/
def fieldName : CField → String
  | CField.date => "date"
  | CField.invoiceNo => "invoiceNo"
  | CField.customerName => "customerName"
  | CField.state => "state"
  | CField.taxableValue => "taxableValue"
  | CField.igst => "igst"
  | CField.cgst => "cgst"
  | CField.sgst => "sgst"
  | CField.totalAmount => "totalAmount"
  | CField.gstRate => "gstRate"
  | CField.productName => "productName"
  | CField.quantity => "quantity"

/-- k.replace with the ASCII upper-case capture group: a space is inserted
before every upper-case letter. -/
def camelSplitChars : List Char → List Char
  | [] => []
  | c :: t => if c.isUpper then ' ' :: c :: camelSplitChars t else c :: camelSplitChars t

def camelSplit (s : String) : String := String.mk (camelSplitChars s.data)

/-- A Mapping assigns a source header string (possibly empty) to each field. -/
abbrev Mapping := CField → String

/-- join with a comma separator, as Array.prototype.join does. -/
def joinComma : List String → String
  | [] => ""
  | [a] => a
  | a :: b :: t => a ++ ", " ++ joinComma (b :: t)

/-- All fields whose mapped header equals h (push order in usedHeaders). -/
def dupKeys (m : Mapping) (h : String) : List CField :=
  allFields.filter (fun k => m k == h)

def requiredMsg : String := "This field is required for Tally import."

/-- The duplicate-mapping error message built in part_000 line 146. -/
def dupMsg (h : String) (others : List CField) : String :=
  "Duplicate mapping: \"" ++ h ++ "\" is also used for " ++
    joinComma (others.map (fun k => camelSplit (fieldName k))) ++ "."

/-- The errors record of validationResults (part_000 lines 97-152).
The duplicate pass runs second and overwrites, but its domain (non-empty
headers) is disjoint from the required-missing domain (empty headers).
Warnings and samples are advisory and not needed by any claim. -/
def errorsFor (m : Mapping) (f : CField) : Option String :=
  if m f ≠ "" ∧ 1 < (dupKeys m (m f)).length then
    some (dupMsg (m f) ((dupKeys m (m f)).filter (fun k => ¬ (k == f))))
  else if f ∈ REQUIRED_FIELDS ∧ m f = "" then some requiredMsg
  else none

/-- hasCriticalErrors (part_000 lines 154-156). -/
def hasCriticalErrors (m : Mapping) : Bool :=
  allFields.any (fun f => (errorsFor m f).isSome)

/-- MarketplaceTransaction (types.ts), with rationals for the numbers. -/
structure MarketplaceTransaction where
  date : String
  invoiceNo : String
  customerName : String
  state : String
  taxableValue : ℚ
  igst : ℚ
  cgst : ℚ
  sgst : ℚ
  totalAmount : ℚ
  gstRate : ℚ
  productName : String
  quantity : ℚ
deriving DecidableEq, Repr

/-- The character class kept by the numeric-strip regex: digits, minus, dot. -/
def keepNumChar (c : Char) : Bool := c.isDigit || c == '-' || c == '.'

def jsStrip (l : List Char) : List Char := l.filter keepNumChar

def digitsVal (l : List Char) : Nat :=
  l.foldl (fun n c => 10 * n + (c.toNat - 48)) 0

/-- parseFloat on a string of digits, minus signs and dots: the longest
prefix of the form sign, integer digits, optional dot and fraction digits
is converted; none (NaN) when no digit is consumed. The value
intPart + fracPart / 10 ^ k is built as one normalized fraction. -/
def parseJsFloat (l : List Char) : Option ℚ :=
  let (neg, r0) := match l with
    | '-' :: t => (true, t)
    | _ => (false, l)
  let ip := r0.takeWhile Char.isDigit
  let r1 := r0.dropWhile Char.isDigit
  let fp := match r1 with
    | '.' :: t => t.takeWhile Char.isDigit
    | _ => []
  if ip = [] ∧ fp = [] then none
  else
    let n : Nat := digitsVal ip * 10 ^ fp.length + digitsVal fp
    some (mkRat (if neg then -(n : Int) else (n : Int)) (10 ^ fp.length))

/-- parseFloatSafe (part_000 line 240): strip, parse, and coerce NaN to 0. -/
def parseFloatSafe (s : String) : ℚ := (parseJsFloat (jsStrip s.data)).getD 0

/-- The whitespace characters removed by trim (the subset reachable from
comma- and newline-split CSV cells). -/
def isWsChar (c : Char) : Bool :=
  c == ' ' || c == '\t' || c == '\r' || c == '\n'

/-- String.prototype.trim on both ends. -/
def jsTrim (l : List Char) : List Char :=
  ((l.dropWhile isWsChar).reverse.dropWhile isWsChar).reverse

/-- cell.replace of one anchored leading and one anchored trailing
double-quote (a lone quote is consumed by the leading alternative only). -/
def stripQuotes (l : List Char) : List Char :=
  let l1 := match l with
    | '"' :: t => t
    | _ => l
  match l1.reverse with
  | '"' :: t => t.reverse
  | _ => l1

/-- csvText.split on the line-break alternation: CRLF preferred over LF. -/
def splitLines : List Char → List (List Char)
  | [] => [[]]
  | '\r' :: '\n' :: t => [] :: splitLines t
  | '\n' :: t => [] :: splitLines t
  | c :: t =>
    match splitLines t with
    | [] => [[c]]
    | l :: ls => (c :: l) :: ls

/-- line.split on commas. -/
def splitCommas : List Char → List (List Char)
  | [] => [[]]
  | ',' :: t => [] :: splitCommas t
  | c :: t =>
    match splitCommas t with
    | [] => [[c]]
    | l :: ls => (c :: l) :: ls

/-- One raw line mapped to its trimmed, quote-stripped cells. -/
def lineCells (l : List Char) : List String :=
  (splitCommas l).map (fun c => String.mk (stripQuotes (jsTrim c)))

/-- parseCSV (part_000 lines 41-46): lines with fewer than two cells are
dropped. -/
def parseCSV (text : String) : List (List String) :=
  ((splitLines text.data).map lineCells).filter (fun cs => 1 < cs.length)

/-- FileData (part_000 lines 35-39). -/
structure FileData where
  name : String
  headers : List String
  rawData : List (List String)
deriving DecidableEq, Repr

/-- The body of handleFileUpload for one file (part_000 lines 190-201):
a file whose parse yields no usable line is skipped entirely. -/
def ingestFile (name text : String) : Option FileData :=
  match parseCSV text with
  | [] => none
  | h :: t => some { name := name, headers := h, rawData := t }

/-- handleFileUpload over a batch of (name, text) inputs, in order. -/
def handleUpload (inputs : List (String × String)) : List FileData :=
  inputs.filterMap (fun p => ingestFile p.1 p.2)

/-- getVal (part_000 lines 234-238). indexOf misses give the empty string;
a found index beyond the end of a ragged row gives the undefined value,
modelled as none. -/
def getVal (m : Mapping) (hs row : List String) (f : CField) : Option String :=
  match hs.findIdx? (fun h => h == m f) with
  | some i => row.get? i
  | none => some ("")

/-- A resolved text cell: the undefined value behaves like the empty string
in every consumer of the text fields (sanitize, the || defaults, Date). -/
def textVal (m : Mapping) (hs row : List String) (f : CField) : String :=
  (getVal m hs row f).getD ""

/-- The row-to-record body of processMapping (part_000 lines 233-256).
Calling replace on an undefined numeric cell throws, so the row maps to
none in that case. -/
def rowToTransaction (m : Mapping) (hs row : List String) :
    Option MarketplaceTransaction :=
  match getVal m hs row CField.taxableValue, getVal m hs row CField.igst,
        getVal m hs row CField.cgst, getVal m hs row CField.sgst,
        getVal m hs row CField.totalAmount, getVal m hs row CField.gstRate,
        getVal m hs row CField.quantity with
  | some tv, some ig, some cg, some sg, some tot, some gr, some q =>
    some {
      date := textVal m hs row CField.date
      invoiceNo := textVal m hs row CField.invoiceNo
      customerName := textVal m hs row CField.customerName
      state := textVal m hs row CField.state
      taxableValue := parseFloatSafe tv
      igst := parseFloatSafe ig
      cgst := parseFloatSafe cg
      sgst := parseFloatSafe sg
      totalAmount := parseFloatSafe tot
      gstRate := parseFloatSafe gr
      productName :=
        (let p := textVal m hs row CField.productName;
         if p = "" then "General Item" else p)
      quantity := (let qv := parseFloatSafe q; if qv = 0 then 1 else qv) }
  | _, _, _, _, _, _, _ => none

/-- All rows of one file. -/
def buildFile (m : Mapping) (f : FileData) :
    Option (List MarketplaceTransaction) :=
  f.rawData.mapM (rowToTransaction m f.headers)

inductive PmError where
  | blocked
  | rowCrash
deriving DecidableEq, Repr

/-- processMapping (part_000 lines 226-264): gated on hasCriticalErrors,
then every row of every file in order. -/
def processMapping (m : Mapping) (files : List FileData) :
    Except PmError (List MarketplaceTransaction) :=
  if hasCriticalErrors m then Except.error PmError.blocked
  else
    match files.mapM (buildFile m) with
    | some ls => Except.ok ls.flatten
    | none => Except.error PmError.rowCrash

/-- Decimal digits of the fraction r / d with r < d, truncated at the fuel
bound (only terminating expansions occur in this development). -/
def fracDigitsN : Nat → Nat → Nat → List Char
  | _, _, 0 => []
  | r, d, Nat.succ fuel =>
    if r = 0 then []
    else Char.ofNat (48 + r * 10 / d) :: fracDigitsN (r * 10 % d) d fuel

/-- Template-literal rendering of a number (decimal, no exponent; matches
the host for the terminating decimals this program produces), computed on
the numerator and denominator. -/
def numRender (q : ℚ) : String :=
  (if q.num < 0 then "-" else "") ++ toString (q.num.natAbs / q.den) ++
    (if q.num.natAbs % q.den = 0 then ""
     else "." ++ String.mk (fracDigitsN (q.num.natAbs % q.den) q.den 17))

/-- Division of a rate by two, as one normalized fraction (shown equal to
r / 2 in halfRat_eq_div_two below). -/
def halfRat (r : ℚ) : ℚ := mkRat r.num (2 * r.den)

/-- Insertion into an ascending list. -/
def insertSorted (x : ℚ) : List ℚ → List ℚ
  | [] => [x]
  | y :: t => if x ≤ y then x :: y :: t else y :: insertSorted x t

/-- Array.prototype.sort with the ascending numeric comparator. -/
def sortAsc (l : List ℚ) : List ℚ := l.foldr insertSorted []

/-- The Set-of-rates insertion order: first occurrence kept. -/
def dedupKeepFirst : List ℚ → List ℚ
  | [] => []
  | x :: t => x :: (dedupKeepFirst t).filter (fun y => ¬ (y == x))

structure Ledger where
  name : String
  type : String
  rate : ℚ
deriving DecidableEq, Repr

def saleLedger (r : ℚ) : Ledger :=
  { name := "Sales @ " ++ numRender r ++ "%", type := "Sales Ledger", rate := r }

def igstLedger (r : ℚ) : Ledger :=
  { name := "Output IGST @ " ++ numRender r ++ "%", type := "Tax Ledger", rate := r }

def cgstLedger (r : ℚ) : Ledger :=
  { name := "Output CGST @ " ++ numRender (halfRat r) ++ "%", type := "Tax Ledger", rate := r }

def sgstLedger (r : ℚ) : Ledger :=
  { name := "Output SGST @ " ++ numRender (halfRat r) ++ "%", type := "Tax Ledger", rate := r }

/-- The distinct positive gstRate values, ascending. -/
def ratesOf (txs : List MarketplaceTransaction) : List ℚ :=
  sortAsc (dedupKeepFirst (txs.filterMap
    (fun t => if 0 < t.gstRate then some t.gstRate else none)))

/-- suggestedLedgers (part_000 lines 159-181): batch-global presence flags,
per-rate emission. -/
def suggestedLedgers (txs : List MarketplaceTransaction) : List Ledger :=
  let hasIgst := txs.any (fun t => decide (0 < t.igst))
  let hasCgstSgst := txs.any (fun t => decide (0 < t.cgst) || decide (0 < t.sgst))
  (ratesOf txs).flatMap (fun rate =>
    [saleLedger rate]
    ++ (if hasIgst then [igstLedger rate] else [])
    ++ (if hasCgstSgst then [cgstLedger rate, sgstLedger rate] else []))

/-- The entity substitution of sanitize (tallyXmlGenerator.ts lines 4-16),
one character at a time. -/
def escChar (c : Char) : List Char :=
  if c = '<' then ['&', 'l', 't', ';']
  else if c = '>' then ['&', 'g', 't', ';']
  else if c = '&' then ['&', 'a', 'm', 'p', ';']
  else if c = Char.ofNat 39 then ['&', 'a', 'p', 'o', 's', ';']
  else if c = Char.ofNat 34 then ['&', 'q', 'u', 'o', 't', ';']
  else [c]

/-- sanitize: the empty-string guard, then the global regex replace. -/
def sanitize (s : String) : String :=
  if s = "" then "" else String.mk (s.data.flatMap escChar)

/-- The decoded character and the remainder after one of the five XML
entities, when the characters following an ampersand begin one. -/
def entRep : List Char → Option (Char × List Char)
  | 'l' :: 't' :: ';' :: r => some ('<', r)
  | 'g' :: 't' :: ';' :: r => some ('>', r)
  | 'a' :: 'm' :: 'p' :: ';' :: r => some ('&', r)
  | 'a' :: 'p' :: 'o' :: 's' :: ';' :: r => some (Char.ofNat 39, r)
  | 'q' :: 'u' :: 'o' :: 't' :: ';' :: r => some (Char.ofNat 34, r)
  | _ => none

/-- Fuel-indexed standard XML entity decoding of the five entities
sanitize emits (fuel at least the length always suffices). -/
def unescF : Nat → List Char → List Char
  | _, [] => []
  | 0, l => l
  | Nat.succ n, c :: r =>
    if c = '&' then
      match entRep r with
      | some (d, r2) => d :: unescF n r2
      | none => c :: unescF n r
    else c :: unescF n r

def unescape (l : List Char) : List Char := unescF l.length l

/-- Fuel-indexed scan: true when the text holds no raw angle bracket,
apostrophe or quote character and every ampersand begins one of the five
entities — the shape of properly escaped XML character data. -/
def escOkF : Nat → List Char → Bool
  | _, [] => true
  | 0, _ :: _ => false
  | Nat.succ n, c :: r =>
    if c = '&' then ((entRep r).map (fun p => escOkF n p.2)).getD false
    else
      decide (c ≠ '<') && decide (c ≠ '>') &&
        decide (c ≠ Char.ofNat 39) && decide (c ≠ Char.ofNat 34) && escOkF n r

def escOk (l : List Char) : Bool := escOkF l.length l

/-- An ISO yyyy-mm-dd string, the date shape this pipeline feeds the host
Date constructor (the host accepts more formats; none are exercised here). -/
def parseIsoDate (l : List Char) : Option (Nat × Nat × Nat) :=
  match l with
  | [y1, y2, y3, y4, '-', m1, m2, '-', d1, d2] =>
    if (y1.isDigit && y2.isDigit && y3.isDigit && y4.isDigit &&
        m1.isDigit && m2.isDigit && d1.isDigit && d2.isDigit) then
      let y := digitsVal [y1, y2, y3, y4]
      let mo := digitsVal [m1, m2]
      let d := digitsVal [d1, d2]
      if 1 ≤ mo ∧ mo ≤ 12 ∧ 1 ≤ d ∧ d ≤ 31 then some (y, mo, d) else none
    else none
  | _ => none

def pad2 (n : Nat) : String := (if n < 10 then "0" else "") ++ toString n

/-- formatDateForTally (tallyXmlGenerator.ts lines 18-25). -/
def formatDateForTally (s : String) : String :=
  match parseIsoDate s.data with
  | some (y, mo, d) => toString y ++ pad2 mo ++ pad2 d
  | none => "20240401"

/-- Number.prototype.toFixed with two digits (half rounded up), computed
on the numerator and denominator: floor of |q| * 100 + 1 / 2. -/
def toFixed2 (q : ℚ) : String :=
  (if q.num < 0 then "-" else "") ++
    (let c : Nat := (q.num.natAbs * 200 + q.den) / (2 * q.den)
     toString (c / 100) ++ "." ++
       (if c % 100 < 10 then "0" else "") ++ toString (c % 100))

/-- Overrides are the Record of custom ledger names. -/
abbrev Overrides := String → Option String

/-- getLedgerName (tallyXmlGenerator.ts lines 31-34): a present, non-blank
override wins, and the result is sanitized. -/
def getLedgerName (ov : Overrides) (defaultName : String) : String :=
  sanitize (match ov defaultName with
    | some c => if c ≠ "" ∧ String.mk (jsTrim c.data) ≠ "" then c else defaultName
    | none => defaultName)

/-- rate = tx.gstRate || 18 (line 63): only a zero rate falls back. -/
def effRate (tx : MarketplaceTransaction) : ℚ :=
  if tx.gstRate = 0 then 18 else tx.gstRate

def defaultSalesName (tx : MarketplaceTransaction) : String :=
  "Sales @ " ++ numRender (effRate tx) ++ "%"

def defaultIgstName (tx : MarketplaceTransaction) : String :=
  "Output IGST @ " ++ numRender (effRate tx) ++ "%"

def defaultCgstName (tx : MarketplaceTransaction) : String :=
  "Output CGST @ " ++ numRender (halfRat (effRate tx)) ++ "%"

def defaultSgstName (tx : MarketplaceTransaction) : String :=
  "Output SGST @ " ++ numRender (halfRat (effRate tx)) ++ "%"

def invoiceNoOf (tx : MarketplaceTransaction) : String := sanitize tx.invoiceNo

def partyNameOf (tx : MarketplaceTransaction) : String :=
  sanitize (if tx.customerName = "" then "Cash" else tx.customerName)

def stateNameOf (tx : MarketplaceTransaction) : String :=
  sanitize (if tx.state = "" then "Maharashtra" else tx.state)

def productNameOf (tx : MarketplaceTransaction) : String :=
  sanitize (if tx.productName = "" then "General Item" else tx.productName)

def salesLedgerOf (ov : Overrides) (tx : MarketplaceTransaction) : String :=
  getLedgerName ov (defaultSalesName tx)

def igstLedgerOf (ov : Overrides) (tx : MarketplaceTransaction) : String :=
  getLedgerName ov (defaultIgstName tx)

def cgstLedgerOf (ov : Overrides) (tx : MarketplaceTransaction) : String :=
  getLedgerName ov (defaultCgstName tx)

def sgstLedgerOf (ov : Overrides) (tx : MarketplaceTransaction) : String :=
  getLedgerName ov (defaultSgstName tx)

inductive TaxKind where
  | igstK | cgstK | sgstK
deriving DecidableEq, Repr

/-- The conditional tax credit entries of one voucher (lines 104-124):
the IGST entry is guarded by igst > 0, and the CGST and SGST pair is
guarded by cgst > 0 alone. -/
def taxKinds (tx : MarketplaceTransaction) : List TaxKind :=
  (if 0 < tx.igst then [TaxKind.igstK] else [])
    ++ (if 0 < tx.cgst then [TaxKind.cgstK, TaxKind.sgstK] else [])

/-- One credit ledger entry block. -/
def ledgerEntry (nm amt : String) : String :=
  "\n            <ALLLEDGERENTRIES.LIST>\n              <LEDGERNAME>" ++ nm ++
    "</LEDGERNAME>\n              <ISDEEMEDPOSITIVE>No</ISDEEMEDPOSITIVE>\n              <AMOUNT>" ++
    amt ++ "</AMOUNT>\n            </ALLLEDGERENTRIES.LIST>"

def taxEntry (ov : Overrides) (tx : MarketplaceTransaction) : TaxKind → String
  | TaxKind.igstK => ledgerEntry (igstLedgerOf ov tx) (toFixed2 tx.igst)
  | TaxKind.cgstK => ledgerEntry (cgstLedgerOf ov tx) (toFixed2 tx.cgst)
  | TaxKind.sgstK => ledgerEntry (sgstLedgerOf ov tx) (toFixed2 tx.sgst)

/-- qty = tx.quantity || 1 (line 57). -/
def qtyOf (tx : MarketplaceTransaction) : ℚ :=
  if tx.quantity = 0 then 1 else tx.quantity

/-- One VOUCHER block (lines 71-128). -/
def voucherXml (ov : Overrides) (tx : MarketplaceTransaction) : String :=
  "\n        <TALLYMESSAGE xmlns:UDF=\"TallyUDF\">\n          <VOUCHER VCHTYPE=\"Sales\" ACTION=\"Create\" OBJVIEW=\"Accounting Voucher View\">\n            <DATE>" ++
    formatDateForTally tx.date ++
    "</DATE>\n            <VOUCHERTYPENAME>Sales</VOUCHERTYPENAME>\n            <REFERENCE>" ++
    invoiceNoOf tx ++
    "</REFERENCE>\n            <PARTYLEDGERNAME>" ++ partyNameOf tx ++
    "</PARTYLEDGERNAME>\n            <STATENAME>" ++ stateNameOf tx ++
    "</STATENAME>\n            <FBTPAYMENTTYPE>Default</FBTPAYMENTTYPE>\n            <PERSISTEDVIEW>Accounting Voucher View</PERSISTEDVIEW>\n            \n            <!-- Dr Party -->\n            <ALLLEDGERENTRIES.LIST>\n              <LEDGERNAME>" ++
    partyNameOf tx ++
    "</LEDGERNAME>\n              <ISDEEMEDPOSITIVE>Yes</ISDEEMEDPOSITIVE>\n              <AMOUNT>-" ++
    toFixed2 tx.totalAmount ++
    "</AMOUNT>\n            </ALLLEDGERENTRIES.LIST>\n\n            <!-- Cr Sales with Inventory -->\n            <ALLLEDGERENTRIES.LIST>\n              <LEDGERNAME>" ++
    salesLedgerOf ov tx ++
    "</LEDGERNAME>\n              <ISDEEMEDPOSITIVE>No</ISDEEMEDPOSITIVE>\n              <AMOUNT>" ++
    toFixed2 tx.taxableValue ++
    "</AMOUNT>\n              <INVENTORYENTRIES.LIST>\n                <STOCKITEMNAME>" ++
    productNameOf tx ++
    "</STOCKITEMNAME>\n                <ISDEEMEDPOSITIVE>No</ISDEEMEDPOSITIVE>\n                <RATE>" ++
    toFixed2 (tx.taxableValue / qtyOf tx) ++
    "</RATE>\n                <AMOUNT>" ++ toFixed2 tx.taxableValue ++
    "</AMOUNT>\n                <ACTUALQTY>" ++ numRender (qtyOf tx) ++
    " Nos</ACTUALQTY>\n                <BILLEDQTY>" ++ numRender (qtyOf tx) ++
    " Nos</BILLEDQTY>\n              </INVENTORYENTRIES.LIST>\n            </ALLLEDGERENTRIES.LIST>" ++
    String.join ((taxKinds tx).map (taxEntry ov tx)) ++
    "\n          </VOUCHER>\n        </TALLYMESSAGE>"

def xmlHeader : String :=
  "<?xml version=\"1.0\"?>\n<ENVELOPE>\n  <HEADER>\n    <TALLYREQUEST>Import Data</TALLYREQUEST>\n  </HEADER>\n  <BODY>\n    <IMPORTDATA>\n      <REQUESTDESC>\n        <REPORTNAME>Vouchers</REPORTNAME>\n        <STATICVARIABLES>\n          <SVCURRENTCOMPANY>Ecommerce Sales</SVCURRENTCOMPANY>\n        </STATICVARIABLES>\n      </REQUESTDESC>\n      <REQUESTDATA>"

def xmlFooter : String :=
  "\n      </REQUESTDATA>\n    </IMPORTDATA>\n  </BODY>\n</ENVELOPE>"

/-- generateTallyXml (tallyXmlGenerator.ts lines 27-138). -/
def generateTallyXml (txs : List MarketplaceTransaction) (ov : Overrides) : String :=
  xmlHeader ++ String.join (txs.map (voucherXml ov)) ++ xmlFooter

/-- The string fragments generateTallyXml interpolates for the five kinds
of text field of one voucher (invoice number, party, state, product, and
the four resolved ledger names). -/
def insertedStrings (ov : Overrides) (tx : MarketplaceTransaction) : List String :=
  [invoiceNoOf tx, partyNameOf tx, stateNameOf tx, productNameOf tx,
   salesLedgerOf ov tx, igstLedgerOf ov tx, cgstLedgerOf ov tx, sgstLedgerOf ov tx]

deriving instance DecidableEq for Except

/-- The Mapping of the spec scenario in section 8 (state, cgst and sgst
left unmapped). -/
def m7 : Mapping := fun f =>
  match f with
  | CField.taxableValue => "Taxable Value"
  | CField.totalAmount => "Invoice Amount"
  | CField.gstRate => "Rate"
  | CField.igst => "IGST"
  | CField.date => "Date"
  | CField.invoiceNo => "Invoice No"
  | CField.customerName => "Name"
  | CField.productName => "Item"
  | CField.quantity => "Qty"
  | _ => ""

/-- Headers aligned with the scenario row. -/
def hs7 : List String :=
  ["Date", "Invoice No", "Name", "Taxable Value", "IGST", "Rate", "Qty",
   "Item", "Invoice Amount"]

def file7 : FileData :=
  { name := "report.csv", headers := hs7,
    rawData := [["2024-04-15", "INV001", "Alice", "1000", "180", "18", "2",
                 "Widget", "18000"]] }

/-- The Transaction the scenario row builds. -/
def tx7 : MarketplaceTransaction :=
  { date := "2024-04-15", invoiceNo := "INV001", customerName := "Alice",
    state := "", taxableValue := 1000, igst := 180, cgst := 0, sgst := 0,
    totalAmount := 18000, gstRate := 18, productName := "Widget", quantity := 2 }

/-- The same source with the quantity cell replaced by a negative value. -/
def fileC2 : FileData :=
  { name := "report.csv", headers := hs7,
    rawData := [["2024-04-15", "INV001", "Alice", "1000", "180", "18", "-2",
                 "Widget", "18000"]] }

def txC2 : MarketplaceTransaction := { tx7 with quantity := -2 }

/-- A batch member with only IGST, at rate 18. -/
def txIgstOnly : MarketplaceTransaction :=
  { date := "", invoiceNo := "", customerName := "", state := "",
    taxableValue := 1000, igst := 180, cgst := 0, sgst := 0,
    totalAmount := 1180, gstRate := 18, productName := "", quantity := 1 }

/-- A batch member with split tax, at rate 18. -/
def txSplitTax : MarketplaceTransaction :=
  { txIgstOnly with igst := 0, cgst := 90, sgst := 90 }

/-- A transaction with sgst positive but cgst zero. -/
def txSgstOnly : MarketplaceTransaction :=
  { txIgstOnly with igst := 0, cgst := 0, sgst := 90 }

/-- A transaction with a negative gstRate. -/
def txNegRate : MarketplaceTransaction := { txIgstOnly with gstRate := -5 }

/-- A transaction with a zero gstRate. -/
def txZeroRate : MarketplaceTransaction := { txIgstOnly with gstRate := 0 }

/-- A transaction whose text fields carry the five XML special characters
and whose customer and state are blank. -/
def txSpecials : MarketplaceTransaction :=
  { txIgstOnly with
    invoiceNo := "A<B>&C",
    customerName := "",
    state := "",
    productName := String.mk ['W', Char.ofNat 34, 'i', Char.ofNat 39, '&', 'd'] }

def noOverrides : Overrides := fun _ => none

/-- A mapping with a duplicated header on date and invoiceNo. -/
def mDup : Mapping := fun f =>
  match f with
  | CField.date => "Order Date"
  | CField.invoiceNo => "Order Date"
  | g => fieldName g

/-- The all-blank mapping. -/
def mBlank : Mapping := fun _ => ""

/-- A mapping with every field mapped to its own distinct header. -/
def mAll : Mapping := fun f => fieldName f

/-- The scenario row with the quantity cell 0. -/
def rowQ0 : List String :=
  ["2024-04-15", "INV001", "Alice", "1000", "180", "18", "0", "Widget", "18000"]

def txQ0 : MarketplaceTransaction := { tx7 with quantity := 1 }

/-- The record built from a row whose numeric cells all resolve (used to
describe the successful branch of rowToTransaction). -/
def builtRow (m : Mapping) (hs row : List String) : MarketplaceTransaction :=
  { date := textVal m hs row CField.date
    invoiceNo := textVal m hs row CField.invoiceNo
    customerName := textVal m hs row CField.customerName
    state := textVal m hs row CField.state
    taxableValue := parseFloatSafe (textVal m hs row CField.taxableValue)
    igst := parseFloatSafe (textVal m hs row CField.igst)
    cgst := parseFloatSafe (textVal m hs row CField.cgst)
    sgst := parseFloatSafe (textVal m hs row CField.sgst)
    totalAmount := parseFloatSafe (textVal m hs row CField.totalAmount)
    gstRate := parseFloatSafe (textVal m hs row CField.gstRate)
    productName :=
      (let p := textVal m hs row CField.productName;
       if p = "" then "General Item" else p)
    quantity :=
      (let qv := parseFloatSafe (textVal m hs row CField.quantity);
       if qv = 0 then 1 else qv) }

theorem mem_allFields (f : CField) : f ∈ allFields := by
  cases f <;> simp [allFields]

theorem two_mem_one_lt_length {α : Type} {l : List α} {a b : α}
    (ha : a ∈ l) (hb : b ∈ l) (hab : a ≠ b) : 1 < l.length := by
  induction l with
  | nil => cases ha
  | cons c t ih =>
    simp only [List.length_cons]
    rcases List.mem_cons.mp ha with rfl | ha2
    · rcases List.mem_cons.mp hb with rfl | hb2
      · exact absurd rfl hab
      · have := List.length_pos.mpr (List.ne_nil_of_mem hb2)
        omega
    · have := List.length_pos.mpr (List.ne_nil_of_mem ha2)
      omega

theorem strApp (s t : String) : (s ++ t).data = s.data ++ t.data := rfl

theorem joinComma_split {a : String} : ∀ {l : List String}, a ∈ l →
    ∃ p q : List Char, (joinComma l).data = p ++ a.data ++ q := by
  intro l h
  induction l with
  | nil => cases h
  | cons x t ih =>
    cases t with
    | nil =>
      have hax : a = x := by simpa using h
      exact ⟨[], [], by simp [joinComma, hax]⟩
    | cons y s =>
      rcases List.mem_cons.mp h with rfl | h2
      · exact ⟨[], (", ").data ++ (joinComma (y :: s)).data,
          by simp [joinComma, strApp, List.append_assoc]⟩
      · obtain ⟨p, q, hpq⟩ := ih h2
        exact ⟨x.data ++ (", ").data ++ p, q,
          by simp [joinComma, strApp, hpq, List.append_assoc]⟩

/-- C5: whenever two distinct canonical fields are mapped to the same
non-empty header, the field receives a hard duplicate-mapping error whose
message contains the camel-case-split rendering of the other field. -/
theorem c5_duplicate_mapping_error (m : Mapping) (f g : CField)
    (hfg : f ≠ g) (hsame : m f = m g) (hne : m f ≠ "") :
    ∃ msg : String, errorsFor m f = some msg ∧
      ∃ p q : List Char, msg.data = p ++ (camelSplit (fieldName g)).data ++ q := by
  have hf : f ∈ dupKeys m (m f) := by
    simp [dupKeys, List.mem_filter, mem_allFields]
  have hg : g ∈ dupKeys m (m f) := by
    simp [dupKeys, List.mem_filter, mem_allFields, hsame.symm]
  have hlen : 1 < (dupKeys m (m f)).length := two_mem_one_lt_length hf hg hfg
  refine ⟨_, by rw [errorsFor, if_pos ⟨hne, hlen⟩], ?_⟩
  have hgo : g ∈ (dupKeys m (m f)).filter (fun k => ¬ (k == f)) := by
    simp [List.mem_filter, hg, Ne.symm hfg]
  have hmem : camelSplit (fieldName g) ∈
      ((dupKeys m (m f)).filter (fun k => ¬ (k == f))).map
        (fun k => camelSplit (fieldName k)) :=
    List.mem_map_of_mem _ hgo
  obtain ⟨p, q, hpq⟩ := joinComma_split hmem
  refine ⟨("Duplicate mapping: \"").data ++ (m f).data ++ ("\" is also used for ").data ++ p,
    q ++ (".").data, ?_⟩
  rw [dupMsg]
  simp only [strApp]
  rw [hpq]
  simp only [List.append_assoc]

/-- C5 witness at a concrete colliding mapping. -/
theorem c5_witness :
    ∃ msg : String, errorsFor mDup CField.date = some msg ∧
      ∃ p q : List Char,
        msg.data = p ++ (camelSplit (fieldName CField.invoiceNo)).data ++ q :=
  c5_duplicate_mapping_error mDup CField.date CField.invoiceNo
    (by decide) (by decide) (by decide)

/-- C6: a REQUIRED field mapped to the empty string always carries a
validation error, and transaction building is blocked exactly when the
errors mapping is non-empty. -/
theorem c6_required_fields_gate (m : Mapping) (files : List FileData) :
    (∀ f, f ∈ REQUIRED_FIELDS → m f = "" → errorsFor m f ≠ none) ∧
    (processMapping m files = Except.error PmError.blocked ↔
      ¬ ∀ f, errorsFor m f = none) := by
  have hiff : hasCriticalErrors m = true ↔ ¬ ∀ f, errorsFor m f = none := by
    rw [hasCriticalErrors, List.any_eq_true]
    constructor
    · rintro ⟨f, _, hf⟩ hall
      rw [hall f] at hf
      simp at hf
    · intro h
      obtain ⟨f, hf⟩ := not_forall.mp h
      exact ⟨f, mem_allFields f, by simpa [Option.isSome_iff_ne_none] using hf⟩
  constructor
  · intro f hreq hemp
    rw [errorsFor, if_neg (by simp [hemp]), if_pos ⟨hreq, hemp⟩]
    simp
  · constructor
    · intro hb
      rw [processMapping] at hb
      by_cases hc : hasCriticalErrors m
      · exact hiff.mp hc
      · rw [if_neg (by simp [hc])] at hb
        rcases hmm : files.mapM (buildFile m) with _ | ls <;> rw [hmm] at hb <;>
          simp at hb
    · intro hne
      rw [processMapping, if_pos (hiff.mpr hne)]

/-- C6 witness: the blank mapping errs on date and blocks building. -/
theorem c6_witness :
    errorsFor mBlank CField.date ≠ none ∧
    (processMapping mBlank [] = Except.error PmError.blocked) :=
  ⟨(c6_required_fields_gate mBlank []).1 CField.date (by decide) rfl,
   (c6_required_fields_gate mBlank []).2.mpr
     (by intro h; exact absurd (h CField.date) (by decide))⟩

/-- C7: the spec scenario mapping applied to its single row yields exactly
the expected transaction (state, cgst and sgst defaulting). -/
theorem c7_scenario : processMapping m7 [file7] = Except.ok [tx7] := by decide

theorem rowToTransaction_eq_builtRow (m : Mapping) (hs row : List String)
    (t : MarketplaceTransaction) (h : rowToTransaction m hs row = some t) :
    t = builtRow m hs row := by
  unfold rowToTransaction at h
  split at h
  next tv ig cg sg tot gr q e1 e2 e3 e4 e5 e6 e7 =>
    injection h with h
    subst h
    simp [builtRow, textVal, e1, e2, e3, e4, e5, e6, e7]
  next => exact absurd h (by simp)

/-- C2 (amended): a built row's quantity is 1 exactly when the quantity
cell is unmapped, unparsable or parses to zero, the parsed value (negative
included) otherwise; quantity is never zero. -/
theorem c2_quantity_default (m : Mapping) (hs row : List String)
    (t : MarketplaceTransaction) (h : rowToTransaction m hs row = some t) :
    t.quantity ≠ 0 ∧
    (parseFloatSafe ((getVal m hs row CField.quantity).getD "") = 0 →
      t.quantity = 1) ∧
    (parseFloatSafe ((getVal m hs row CField.quantity).getD "") ≠ 0 →
      t.quantity = parseFloatSafe ((getVal m hs row CField.quantity).getD "")) := by
  rw [rowToTransaction_eq_builtRow m hs row t h]
  simp only [builtRow, textVal]
  by_cases hq : parseFloatSafe ((getVal m hs row CField.quantity).getD "") = 0
  · rw [if_pos hq]
    exact ⟨one_ne_zero, fun _ => rfl, fun hne => absurd hq hne⟩
  · rw [if_neg hq]
    exact ⟨hq, fun h0 => absurd h0 hq, fun _ => rfl⟩

/-- C2 counterexample: a quantity cell parsing to the negative value -2 is
carried through unchanged, where the claim requires the default 1. -/
theorem c2_counterexample :
    processMapping m7 [fileC2] = Except.ok [txC2] ∧
    txC2.quantity = -2 ∧ ¬ txC2.quantity = 1 := by decide

/-- C2 witness: a quantity cell of 0 defaults to 1. -/
theorem c2_witness : txQ0.quantity = 1 :=
  (c2_quantity_default m7 hs7 rowQ0 txQ0 (by decide)).2.1 (by decide)

/-- C1 (amended): a voucher carries the IGST credit entry exactly when
igst > 0, and carries the CGST and SGST pair exactly when cgst > 0 —
sgst alone never produces tax lines. -/
theorem c1_tax_entry_guards (tx : MarketplaceTransaction) :
    (TaxKind.igstK ∈ taxKinds tx ↔ 0 < tx.igst) ∧
    (TaxKind.cgstK ∈ taxKinds tx ↔ 0 < tx.cgst) ∧
    (TaxKind.sgstK ∈ taxKinds tx ↔ 0 < tx.cgst) := by
  unfold taxKinds
  by_cases hi : 0 < tx.igst <;> by_cases hc : 0 < tx.cgst <;> simp [hi, hc]

/-- C1 counterexample: a transaction with sgst = 90 > 0 and cgst = 0 gets
no tax credit entries at all, where the claim requires CGST and SGST
lines. -/
theorem c1_counterexample :
    0 < txSgstOnly.sgst ∧ txSgstOnly.cgst = 0 ∧ taxKinds txSgstOnly = [] := by
  decide

/-- halfRat is exactly the division by two the source writes. -/
theorem halfRat_eq_div_two (r : ℚ) : halfRat r = r / 2 := by
  rw [halfRat, Rat.mkRat_eq_div]
  push_cast
  rw [mul_comm, ← div_div, Rat.num_div_den]

/-- C3 (amended): the ledger names fall back to rate 18 exactly when
gstRate = 0; any non-zero gstRate, negative included, is used as-is. -/
theorem c3_rate_fallback (tx : MarketplaceTransaction) :
    (tx.gstRate = 0 →
      defaultSalesName tx = "Sales @ 18%" ∧
      defaultIgstName tx = "Output IGST @ 18%" ∧
      defaultCgstName tx = "Output CGST @ 9%" ∧
      defaultSgstName tx = "Output SGST @ 9%") ∧
    (tx.gstRate ≠ 0 →
      defaultSalesName tx = "Sales @ " ++ numRender tx.gstRate ++ "%" ∧
      defaultIgstName tx = "Output IGST @ " ++ numRender tx.gstRate ++ "%" ∧
      defaultCgstName tx = "Output CGST @ " ++ numRender (halfRat tx.gstRate) ++ "%" ∧
      defaultSgstName tx = "Output SGST @ " ++ numRender (halfRat tx.gstRate) ++ "%" ∧
      halfRat tx.gstRate = tx.gstRate / 2) := by
  constructor
  · intro h
    unfold defaultSalesName defaultIgstName defaultCgstName defaultSgstName effRate
    rw [if_pos h]
    refine ⟨by decide, by decide, by decide, by decide⟩
  · intro h
    unfold defaultSalesName defaultIgstName defaultCgstName defaultSgstName effRate
    rw [if_neg h]
    exact ⟨rfl, rfl, rfl, rfl, halfRat_eq_div_two tx.gstRate⟩

/-- C3 counterexample: gstRate = -5 satisfies gstRate ≤ 0 but does not
fall back to 18; the sales ledger default is built at -5. -/
theorem c3_counterexample :
    txNegRate.gstRate ≤ 0 ∧ effRate txNegRate ≠ 18 ∧
    defaultSalesName txNegRate = "Sales @ -5%" := by decide

/-- C3 witness at a zero rate. -/
theorem c3_witness : defaultSalesName txZeroRate = "Sales @ 18%" :=
  ((c3_rate_fallback txZeroRate).1 rfl).1

/-- C10: a blank customer name substitutes the party ledger Cash and a
blank state substitutes Maharashtra; non-blank values pass through
escaped. -/
theorem c10_party_state_defaults (tx : MarketplaceTransaction) :
    (tx.customerName = "" → partyNameOf tx = "Cash") ∧
    (tx.customerName ≠ "" → partyNameOf tx = sanitize tx.customerName) ∧
    (tx.state = "" → stateNameOf tx = "Maharashtra") ∧
    (tx.state ≠ "" → stateNameOf tx = sanitize tx.state) := by
  refine ⟨?_, ?_, ?_, ?_⟩ <;> intro h
  · rw [partyNameOf, if_pos h]
    decide
  · rw [partyNameOf, if_neg h]
  · rw [stateNameOf, if_pos h]
    decide
  · rw [stateNameOf, if_neg h]

/-- C10 witness at a transaction with blank customer and state. -/
theorem c10_witness :
    partyNameOf txSpecials = "Cash" ∧ stateNameOf txSpecials = "Maharashtra" :=
  ⟨(c10_party_state_defaults txSpecials).1 rfl,
   (c10_party_state_defaults txSpecials).2.2.1 rfl⟩

/-- C4 (amended): a file in which every line splits into fewer than two
cells parses to the empty list and is skipped — no Source is created at
all — ingestion does not crash, and the pipeline yields no transactions
from it. -/
theorem c4_empty_file_skipped (name text : String) (m : Mapping)
    (h : ∀ l ∈ splitLines text.data, (splitCommas l).length ≤ 1) :
    parseCSV text = [] ∧ ingestFile name text = none ∧
    handleUpload [(name, text)] = [] ∧
    (hasCriticalErrors m = false →
      processMapping m (handleUpload [(name, text)]) = Except.ok []) := by
  have hcsv : parseCSV text = [] := by
    rw [parseCSV, List.filter_eq_nil_iff]
    intro cs hcs
    obtain ⟨l, hl, rfl⟩ := List.mem_map.mp hcs
    have hle := h l hl
    simp only [lineCells, List.length_map, decide_eq_true_eq]
    omega
  have hing : ingestFile name text = none := by
    rw [ingestFile, hcsv]
  have hup : handleUpload [(name, text)] = [] := by
    simp [handleUpload, hing]
  refine ⟨hcsv, hing, hup, fun hg => ?_⟩
  rw [hup, processMapping, if_neg (by simp [hg])]
  rfl

/-- C4 counterexample: the two-line file with single-cell lines produces
no Source, not an empty Source. -/
theorem c4_counterexample :
    handleUpload [("f.csv", "abc\ndef")] = [] ∧
    handleUpload [("f.csv", "abc\ndef")] ≠
      [{ name := "f.csv", headers := [], rawData := [] }] := by decide

/-- C4 witness at the same concrete file with an error-free mapping. -/
theorem c4_witness :
    processMapping mAll (handleUpload [("f.csv", "abc\ndef")]) = Except.ok [] :=
  (c4_empty_file_skipped "f.csv" "abc\ndef" mAll (by decide)).2.2.2 (by decide)

theorem mem_insertSorted {a x : ℚ} : ∀ {l : List ℚ},
    a ∈ insertSorted x l ↔ a = x ∨ a ∈ l := by
  intro l
  induction l with
  | nil => simp [insertSorted]
  | cons y t ih =>
    by_cases hxy : x ≤ y
    · simp [insertSorted, hxy]
    · simp only [insertSorted, if_neg hxy, List.mem_cons, ih]
      tauto

theorem perm_insertSorted (x : ℚ) : ∀ (l : List ℚ),
    (insertSorted x l).Perm (x :: l) := by
  intro l
  induction l with
  | nil => simp [insertSorted]
  | cons y t ih =>
    by_cases hxy : x ≤ y
    · simp [insertSorted, hxy]
    · rw [insertSorted, if_neg hxy]
      exact (ih.cons y).trans (List.Perm.swap x y t)

theorem perm_sortAsc : ∀ (l : List ℚ), (sortAsc l).Perm l := by
  intro l
  induction l with
  | nil => simp [sortAsc]
  | cons x t ih =>
    rw [sortAsc, List.foldr_cons]
    exact (perm_insertSorted x (sortAsc t)).trans (ih.cons x)

theorem pairwise_insertSorted (x : ℚ) : ∀ {l : List ℚ},
    l.Pairwise (· ≤ ·) → (insertSorted x l).Pairwise (· ≤ ·) := by
  intro l hl
  induction l with
  | nil => simp [insertSorted]
  | cons y t ih =>
    rcases List.pairwise_cons.mp hl with ⟨hy, ht⟩
    by_cases hxy : x ≤ y
    · rw [insertSorted, if_pos hxy]
      refine List.pairwise_cons.mpr ⟨?_, hl⟩
      intro b hb
      rcases List.mem_cons.mp hb with rfl | hb2
      · exact hxy
      · exact hxy.trans (hy b hb2)
    · rw [insertSorted, if_neg hxy]
      refine List.pairwise_cons.mpr ⟨?_, ih ht⟩
      intro b hb
      rcases mem_insertSorted.mp hb with rfl | hb2
      · exact le_of_not_le hxy
      · exact hy b hb2

theorem pairwise_sortAsc (l : List ℚ) : (sortAsc l).Pairwise (· ≤ ·) := by
  induction l with
  | nil => simp [sortAsc]
  | cons x t ih =>
    rw [sortAsc, List.foldr_cons]
    exact pairwise_insertSorted x ih

theorem mem_dedupKeepFirst {a : ℚ} : ∀ {l : List ℚ},
    a ∈ dedupKeepFirst l ↔ a ∈ l := by
  intro l
  induction l with
  | nil => simp [dedupKeepFirst]
  | cons x t ih =>
    simp only [dedupKeepFirst, List.mem_cons, List.mem_filter, ih,
      decide_eq_true_eq]
    by_cases hax : a = x
    · simp [hax]
    · simp [hax]

theorem nodup_dedupKeepFirst : ∀ (l : List ℚ), (dedupKeepFirst l).Nodup := by
  intro l
  induction l with
  | nil => simp [dedupKeepFirst]
  | cons x t ih =>
    rw [dedupKeepFirst]
    refine List.nodup_cons.mpr ⟨?_, ih.filter _⟩
    intro hx
    have := (List.mem_filter.mp hx).2
    simp at this

/-- C8: ledger derivation is a pure function of the batch: the rate set is
the distinct positive gstRates sorted ascending; every rate gets a Sales
ledger, an IGST ledger whenever any transaction in the batch has igst > 0,
and the CGST and SGST pair whenever any has cgst > 0 or sgst > 0; the
two-transaction scenario yields all four ledgers at rate 18. -/
theorem c8_ledger_derivation (txs : List MarketplaceTransaction) (r : ℚ) :
    (ratesOf txs).Nodup ∧ (ratesOf txs).Pairwise (· ≤ ·) ∧
    (r ∈ ratesOf txs →
      0 < r ∧ saleLedger r ∈ suggestedLedgers txs ∧
      (txs.any (fun t => decide (0 < t.igst)) = true →
        igstLedger r ∈ suggestedLedgers txs) ∧
      (txs.any (fun t => decide (0 < t.cgst) || decide (0 < t.sgst)) = true →
        cgstLedger r ∈ suggestedLedgers txs ∧
        sgstLedger r ∈ suggestedLedgers txs)) ∧
    suggestedLedgers [txIgstOnly, txSplitTax] =
      [saleLedger 18, igstLedger 18, cgstLedger 18, sgstLedger 18] := by
  refine ⟨?_, ?_, ?_, by decide⟩
  · rw [ratesOf]
    exact ((perm_sortAsc _).nodup_iff).mpr (nodup_dedupKeepFirst _)
  · exact pairwise_sortAsc _
  · intro hr
    have hpos : 0 < r := by
      have hmem : r ∈ txs.filterMap
          (fun t => if 0 < t.gstRate then some t.gstRate else none) := by
        rw [ratesOf] at hr
        exact mem_dedupKeepFirst.mp ((perm_sortAsc _).mem_iff.mp hr)
      obtain ⟨t, _, hf⟩ := List.mem_filterMap.mp hmem
      by_cases hgt : 0 < t.gstRate
      · rw [if_pos hgt] at hf
        injection hf with hf
        exact hf ▸ hgt
      · rw [if_neg hgt] at hf
        cases hf
    refine ⟨hpos, ?_, ?_, ?_⟩
    · rw [suggestedLedgers]
      exact List.mem_flatMap.mpr ⟨r, hr, by simp⟩
    · intro hI
      rw [suggestedLedgers]
      exact List.mem_flatMap.mpr ⟨r, hr, by simp [hI]⟩
    · intro hC
      rw [suggestedLedgers]
      exact ⟨List.mem_flatMap.mpr ⟨r, hr, by simp [hC]⟩,
             List.mem_flatMap.mpr ⟨r, hr, by simp [hC]⟩⟩

/-- C8 witness at the scenario batch and rate 18. -/
theorem c8_witness :
    saleLedger 18 ∈ suggestedLedgers [txIgstOnly, txSplitTax] ∧
    igstLedger 18 ∈ suggestedLedgers [txIgstOnly, txSplitTax] ∧
    cgstLedger 18 ∈ suggestedLedgers [txIgstOnly, txSplitTax] ∧
    sgstLedger 18 ∈ suggestedLedgers [txIgstOnly, txSplitTax] := by
  obtain ⟨-, -, h, -⟩ := c8_ledger_derivation [txIgstOnly, txSplitTax] 18
  obtain ⟨-, hs, hi, hcs⟩ := h (by decide)
  exact ⟨hs, hi (by decide), (hcs (by decide)).1, (hcs (by decide)).2⟩

theorem unescF_flatMap : ∀ (l : List Char) (n : Nat),
    (l.flatMap escChar).length ≤ n → unescF n (l.flatMap escChar) = l := by
  intro l
  induction l with
  | nil => intro n _; simp [unescF]
  | cons c t ih =>
    intro n hlen
    rw [List.flatMap_cons] at hlen ⊢
    by_cases h1 : c = '<'
    · subst h1
      rw [show escChar '<' = ['&', 'l', 't', ';'] from rfl] at hlen ⊢
      simp only [List.cons_append, List.nil_append, List.length_cons] at hlen ⊢
      obtain ⟨n2, rfl⟩ : ∃ n2, n = n2 + 1 := ⟨n - 1, by omega⟩
      rw [unescF, if_pos rfl]
      simp only [entRep]
      rw [ih n2 (by omega)]
    · by_cases h2 : c = '>'
      · subst h2
        rw [show escChar '>' = ['&', 'g', 't', ';'] from rfl] at hlen ⊢
        simp only [List.cons_append, List.nil_append, List.length_cons] at hlen ⊢
        obtain ⟨n2, rfl⟩ : ∃ n2, n = n2 + 1 := ⟨n - 1, by omega⟩
        rw [unescF, if_pos rfl]
        simp only [entRep]
        rw [ih n2 (by omega)]
      · by_cases h3 : c = '&'
        · subst h3
          rw [show escChar '&' = ['&', 'a', 'm', 'p', ';'] from rfl] at hlen ⊢
          simp only [List.cons_append, List.nil_append, List.length_cons] at hlen ⊢
          obtain ⟨n2, rfl⟩ : ∃ n2, n = n2 + 1 := ⟨n - 1, by omega⟩
          rw [unescF, if_pos rfl]
          simp only [entRep]
          rw [ih n2 (by omega)]
        · by_cases h4 : c = Char.ofNat 39
          · subst h4
            rw [show escChar (Char.ofNat 39) = ['&', 'a', 'p', 'o', 's', ';'] from rfl] at hlen ⊢
            simp only [List.cons_append, List.nil_append, List.length_cons] at hlen ⊢
            obtain ⟨n2, rfl⟩ : ∃ n2, n = n2 + 1 := ⟨n - 1, by omega⟩
            rw [unescF, if_pos rfl]
            simp only [entRep]
            rw [ih n2 (by omega)]
          · by_cases h5 : c = Char.ofNat 34
            · subst h5
              rw [show escChar (Char.ofNat 34) = ['&', 'q', 'u', 'o', 't', ';'] from rfl] at hlen ⊢
              simp only [List.cons_append, List.nil_append, List.length_cons] at hlen ⊢
              obtain ⟨n2, rfl⟩ : ∃ n2, n = n2 + 1 := ⟨n - 1, by omega⟩
              rw [unescF, if_pos rfl]
              simp only [entRep]
              rw [ih n2 (by omega)]
            · rw [show escChar c = [c] by
                rw [escChar, if_neg h1, if_neg h2, if_neg h3, if_neg h4, if_neg h5]] at hlen ⊢
              simp only [List.cons_append, List.nil_append, List.length_cons] at hlen ⊢
              obtain ⟨n2, rfl⟩ : ∃ n2, n = n2 + 1 := ⟨n - 1, by omega⟩
              rw [unescF, if_neg h3]
              rw [ih n2 (by omega)]

theorem escOkF_flatMap : ∀ (l : List Char) (n : Nat),
    (l.flatMap escChar).length ≤ n → escOkF n (l.flatMap escChar) = true := by
  intro l
  induction l with
  | nil => intro n _; simp [escOkF]
  | cons c t ih =>
    intro n hlen
    rw [List.flatMap_cons] at hlen ⊢
    by_cases h1 : c = '<'
    · subst h1
      rw [show escChar '<' = ['&', 'l', 't', ';'] from rfl] at hlen ⊢
      simp only [List.cons_append, List.nil_append, List.length_cons] at hlen ⊢
      obtain ⟨n2, rfl⟩ : ∃ n2, n = n2 + 1 := ⟨n - 1, by omega⟩
      rw [escOkF, if_pos rfl]
      simp only [entRep, Option.map_some, Option.getD_some]
      exact ih n2 (by omega)
    · by_cases h2 : c = '>'
      · subst h2
        rw [show escChar '>' = ['&', 'g', 't', ';'] from rfl] at hlen ⊢
        simp only [List.cons_append, List.nil_append, List.length_cons] at hlen ⊢
        obtain ⟨n2, rfl⟩ : ∃ n2, n = n2 + 1 := ⟨n - 1, by omega⟩
        rw [escOkF, if_pos rfl]
        simp only [entRep, Option.map_some, Option.getD_some]
        exact ih n2 (by omega)
      · by_cases h3 : c = '&'
        · subst h3
          rw [show escChar '&' = ['&', 'a', 'm', 'p', ';'] from rfl] at hlen ⊢
          simp only [List.cons_append, List.nil_append, List.length_cons] at hlen ⊢
          obtain ⟨n2, rfl⟩ : ∃ n2, n = n2 + 1 := ⟨n - 1, by omega⟩
          rw [escOkF, if_pos rfl]
          simp only [entRep, Option.map_some, Option.getD_some]
          exact ih n2 (by omega)
        · by_cases h4 : c = Char.ofNat 39
          · subst h4
            rw [show escChar (Char.ofNat 39) = ['&', 'a', 'p', 'o', 's', ';'] from rfl] at hlen ⊢
            simp only [List.cons_append, List.nil_append, List.length_cons] at hlen ⊢
            obtain ⟨n2, rfl⟩ : ∃ n2, n = n2 + 1 := ⟨n - 1, by omega⟩
            rw [escOkF, if_pos rfl]
            simp only [entRep, Option.map_some, Option.getD_some]
            exact ih n2 (by omega)
          · by_cases h5 : c = Char.ofNat 34
            · subst h5
              rw [show escChar (Char.ofNat 34) = ['&', 'q', 'u', 'o', 't', ';'] from rfl] at hlen ⊢
              simp only [List.cons_append, List.nil_append, List.length_cons] at hlen ⊢
              obtain ⟨n2, rfl⟩ : ∃ n2, n = n2 + 1 := ⟨n - 1, by omega⟩
              rw [escOkF, if_pos rfl]
              simp only [entRep, Option.map_some, Option.getD_some]
              exact ih n2 (by omega)
            · rw [show escChar c = [c] by
                rw [escChar, if_neg h1, if_neg h2, if_neg h3, if_neg h4, if_neg h5]] at hlen ⊢
              simp only [List.cons_append, List.nil_append, List.length_cons] at hlen ⊢
              obtain ⟨n2, rfl⟩ : ∃ n2, n = n2 + 1 := ⟨n - 1, by omega⟩
              rw [escOkF, if_neg h3]
              simp only [Bool.and_eq_true, decide_eq_true_eq]
              exact ⟨⟨⟨⟨h1, h2⟩, h4⟩, h5⟩, ih n2 (by omega)⟩

theorem unescape_sanitize (s : String) : unescape (sanitize s).data = s.data := by
  rw [sanitize]
  by_cases h : s = ""
  · rw [if_pos h, h]
    rfl
  · rw [if_neg h]
    exact unescF_flatMap s.data _ le_rfl

theorem escOk_sanitize (s : String) : escOk (sanitize s).data = true := by
  rw [sanitize]
  by_cases h : s = ""
  · rw [if_pos h]
    rfl
  · rw [if_neg h]
    exact escOkF_flatMap s.data _ le_rfl

/-- C9: every string fragment generateTallyXml interpolates for the text
fields of a voucher (invoice number, party, state, product, and the four
resolved ledger names) is properly escaped — no raw angle bracket,
apostrophe or quote, every ampersand starting an entity — and decodes
back to the text it was built from. -/
theorem c9_inserted_fragments_escaped (tx : MarketplaceTransaction)
    (ov : Overrides) (s : String) (hs : s ∈ insertedStrings ov tx) :
    escOk s.data = true ∧
    ∃ orig : String, s = sanitize orig ∧ unescape s.data = orig.data := by
  have hall : ∃ orig : String, s = sanitize orig := by
    simp only [insertedStrings, List.mem_cons, List.not_mem_nil, or_false] at hs
    rcases hs with rfl | rfl | rfl | rfl | rfl | rfl | rfl | rfl
    · exact ⟨tx.invoiceNo, rfl⟩
    · exact ⟨(if tx.customerName = "" then "Cash" else tx.customerName), rfl⟩
    · exact ⟨(if tx.state = "" then "Maharashtra" else tx.state), rfl⟩
    · exact ⟨(if tx.productName = "" then "General Item" else tx.productName), rfl⟩
    · exact ⟨_, rfl⟩
    · exact ⟨_, rfl⟩
    · exact ⟨_, rfl⟩
    · exact ⟨_, rfl⟩
  obtain ⟨orig, rfl⟩ := hall
  exact ⟨escOk_sanitize orig, orig, rfl, unescape_sanitize orig⟩

/-- C9 witness on concrete fields holding all five special characters. -/
theorem c9_witness :
    escOk (invoiceNoOf txSpecials).data = true ∧
    escOk (productNameOf txSpecials).data = true ∧
    invoiceNoOf txSpecials = "A&lt;B&gt;&amp;C" := by
  refine ⟨?_, ?_, by decide⟩
  · exact (c9_inserted_fragments_escaped txSpecials noOverrides _
      (by simp [insertedStrings])).1
  · exact (c9_inserted_fragments_escaped txSpecials noOverrides _
      (by simp [insertedStrings])).1
